import Mathlib

/-!
Verification of the model-acquisition cascade and the inference
buffer/prediction pipeline of the sign-language web application
(src/src/hooks/useSignLanguageModel.js).

The hook source file contains three concatenated variants of the hook.
We refer to them as:
  variant 1 (lines 1-967)     : the main hook,
  variant 2 (lines 968-1835)  : the documented hook (session cache with
                                version tag and 1-hour freshness window),
  variant 3 (lines 1836-2077) : the simplified hook.
Definitions below are shallow embeddings of these functions; each carries
a comment pointing at the variant and source lines it embeds.
-/

namespace SignLanguage

/-- Source constant FRAME_BUFFER_SIZE (line 9). -/
def FRAME_BUFFER_SIZE : Nat := 30

/-- Source constant CONFIDENCE_THRESHOLD (line 16), as an exact rational. -/
def CONFIDENCE_THRESHOLD : ℚ := 7/10

/-- Source constant MODEL_URL.CACHE_KEY (line 14). -/
def CACHE_KEY : String := "sign-language-model-v5"

/-! ## Frame buffer (variant 1, processHandLandmarks, lines 804-816)

A frame is a feature vector of rationals (the 126 coordinates).
The buffer-maintenance part of processHandLandmarks pushes the new frame
and drops the oldest one whenever the length exceeds FRAME_BUFFER_SIZE. -/

/-- One frame vector; coordinates are modelled as exact rationals. -/
abbrev Frame := List ℚ

/-- The buffer update of processHandLandmarks (lines 804-810):
push the incoming frame, then shift (drop the head) if the length
exceeds FRAME_BUFFER_SIZE. -/
def ingestFrame (buf : List Frame) (f : Frame) : List Frame :=
  let b := buf ++ [f]
  if FRAME_BUFFER_SIZE < b.length then b.tail else b

/-- The isFull flag computed and returned by processHandLandmarks
(lines 813-816). -/
def ingestIsFull (buf : List Frame) (f : Frame) : Bool :=
  (ingestFrame buf f).length = FRAME_BUFFER_SIZE

/-- A sequence of calls to the frame-ingestion operation, starting from a
given buffer state. -/
def ingestAll (buf : List Frame) (fs : List Frame) : List Frame :=
  fs.foldl ingestFrame buf

/-! ## Frame-vector construction (variant 1, processHandLandmarks, lines 784-802)

The landmark-flattening part of processHandLandmarks: a 126-slot array of
zeros, with hand index h (h < 2) and landmark index l written at base
offset h*63 + l*3.  The forEach over a hand visits its landmarks in order
with consecutive base offsets differing by 3, which we embed as a
recursion carrying the running base offset. -/

/-- An input landmark with normalized coordinates. -/
structure Landmark where
  x : ℚ
  y : ℚ
  z : ℚ
deriving DecidableEq

/-- The three assignments at lines 797-799: store x, y, z at baseIndex,
baseIndex+1, baseIndex+2. -/
def writeLandmark (arr : List ℚ) (base : Nat) (lm : Landmark) : List ℚ :=
  ((arr.set base lm.x).set (base + 1) lm.y).set (base + 2) lm.z

/-- The inner forEach over one hand (lines 792-800): landmark with index
l is written at base offset handBase + l*3. -/
def writeHand (arr : List ℚ) (base : Nat) : List Landmark → List ℚ
  | [] => arr
  | lm :: rest => writeHand (writeLandmark arr base lm) (base + 3) rest

/-- The outer forEach over detected hands (lines 788-801): hands with
index at least 2 are skipped (line 789), hand hi uses base hi*63. -/
def writeHands (arr : List ℚ) (hi : Nat) : List (List Landmark) → List ℚ
  | [] => arr
  | h :: rest =>
      let arr2 := if 2 ≤ hi then arr else writeHand arr (hi * 63) h
      writeHands arr2 (hi + 1) rest

/-- The frame vector built by processHandLandmarks from the detected
hands (line 784: new Array(126).fill(0), then the nested forEach). -/
def processHandLandmarksFrame (hands : List (List Landmark)) : List ℚ :=
  writeHands (List.replicate 126 0) 0 hands

/-- Concrete stream of 31 one-element frames used as the C1 witness. -/
def framesW : List Frame := (List.range 31).map (fun i => [(i : ℚ)])

/-! ## Arg-max class selection (variant 1, runPrediction, lines 893-906;
variant 3, lines 2006-2008 use the same scan)

The loop scans the prediction array with running best (maxProb, maxIndex)
started at (0, 0) and strict greater-than comparison. -/

/-- The scan loop of lines 894-902: i is the index of the head of the
remaining list. -/
def scanMaxAux : List ℚ → Nat → ℚ × Nat → ℚ × Nat
  | [], _, best => best
  | v :: rest, i, best => scanMaxAux rest (i + 1) (if best.1 < v then (v, i) else best)

/-- (maxProb, maxIndex) of a prediction array. -/
def argmaxConf (arr : List ℚ) : ℚ × Nat := scanMaxAux arr 0 (0, 0)

/-- Line 905: safeIndex = Math.min(maxIndex, classLabels.length - 1). -/
def safeIndex (arr : List ℚ) (labels : List String) : Nat :=
  min (argmaxConf arr).2 (labels.length - 1)

/-! ## Predictor (variant 1, runPrediction, lines 821-937)

Stateful aspects are made explicit: the mutable refs and React state
read/written by runPrediction form a PredictorState, and one call maps a
state, the current time (performance.now, a real-valued clock modelled as
a rational) and the inference output vector to a result, the new state
and a flag recording whether inference executed.  USE_MOCK_MODEL is false
(line 17) and the created models never carry a mockModel property, so the
mock branch at lines 850-869 is dead code and is not modelled. -/

/-- A Prediction object as built at lines 922-926. -/
structure Prediction where
  label : String
  confidence : ℚ
  isMock : Bool
deriving DecidableEq

/-- The predictor-visible mutable state of the hook. -/
structure PredictorState where
  buffer : List Frame
  isBufferFull : Bool
  lastPredictionTime : ℚ
  prediction : Option Prediction
deriving DecidableEq

/-- Outcome of one runPrediction call. -/
structure RunResult where
  ret : Option Prediction
  state : PredictorState
  ranInference : Bool
deriving DecidableEq

/-- Variant 1 runPrediction.  hasModel is whether the model state is
non-null with a predict function (lines 823-837); infer is the
probability vector produced by model.predict on the buffer tensor. -/
def runPrediction (hasModel : Bool) (labels : List String)
    (st : PredictorState) (now : ℚ) (infer : List ℚ) : RunResult :=
  if ¬hasModel then ⟨none, st, false⟩
  else if ¬st.isBufferFull then ⟨none, st, false⟩
  else if now - st.lastPredictionTime < 200 then ⟨none, st, false⟩
  else
    -- line 847: the throttle timestamp is updated before inference
    let st1 := { st with lastPredictionTime := now }
    if st.buffer.length ≠ FRAME_BUFFER_SIZE then ⟨none, st1, false⟩
    else if infer.isEmpty then ⟨none, st1, true⟩
    else
      let m := argmaxConf infer
      let label := labels.getD (safeIndex infer labels) ""
      if CONFIDENCE_THRESHOLD ≤ m.1 then
        let p : Prediction := ⟨label, m.1, false⟩
        ⟨some p, { st1 with prediction := some p }, true⟩
      else
        ⟨none, st1, true⟩

/-! ## Simplified predictor (variant 3, runPrediction, lines 1969-2029)

The simplified hook computes the same arg-max but always stores a
prediction object: a qualifying one above the threshold, or a
"No confident prediction" sentinel below it (lines 2010-2017), and resets
the buffer in the finally block (lines 2024-2028). -/

/-- A prediction object of the simplified hook (label, confidence). -/
structure SimplePrediction where
  label : String
  confidence : ℚ
deriving DecidableEq

/-- The predictor-visible state of the simplified hook. -/
structure SimpleState where
  buffer : List Frame
  bufferLength : Nat
  isBufferFull : Bool
  isPredicting : Bool
  prediction : Option SimplePrediction
  error : Option String
deriving DecidableEq

/-- Line 2013: model.outputNames?.[idx] || "class_" ++ idx (the empty
string is falsy in the source language). -/
def outputLabel (names : Option (List String)) (idx : Nat) : String :=
  match names with
  | some ns =>
    match ns[idx]? with
    | some n => if n = "" then "class_" ++ toString idx else n
    | none => "class_" ++ toString idx
  | none => "class_" ++ toString idx

/-- Variant 3 runPrediction (lines 1969-2029): guard, buffer validation,
arg-max, threshold branch that stores either the qualifying prediction or
the sentinel, and the finally block that resets the buffer. -/
def runPredictionSimplified (hasModel : Bool) (names : Option (List String))
    (st : SimpleState) (data : List ℚ) : SimpleState :=
  if ¬(hasModel ∧ st.isBufferFull) then st
  else if st.buffer.length ≠ FRAME_BUFFER_SIZE then
    { st with
      error := some "Prediction error: invalid buffer size",
      isPredicting := false, buffer := [], bufferLength := 0, isBufferFull := false }
  else if ¬(st.buffer.all (fun f => f.length = 126)) then
    { st with
      error := some "Prediction error: invalid frame size",
      isPredicting := false, buffer := [], bufferLength := 0, isBufferFull := false }
  else
    let m := argmaxConf data
    let pred : SimplePrediction :=
      if CONFIDENCE_THRESHOLD ≤ m.1 then ⟨outputLabel names m.2, m.1⟩
      else ⟨"No confident prediction", m.1⟩
    { st with
      prediction := some pred, isPredicting := false,
      buffer := [], bufferLength := 0, isBufferFull := false }

/-- A full 30-frame buffer of zero frames, used by concrete witnesses. -/
def fullBufferW : List Frame := List.replicate 30 (List.replicate 126 0)

/-- Concrete variant-1 predictor state for witnesses. -/
def stW : PredictorState :=
  { buffer := fullBufferW, isBufferFull := true, lastPredictionTime := 0,
    prediction := some ⟨"Hello", 9/10, false⟩ }

/-- Concrete simplified-hook state for the C3 counterexample: a
qualifying prediction is currently stored. -/
def sstW : SimpleState :=
  { buffer := fullBufferW, bufferLength := 30, isBufferFull := true,
    isPredicting := false, prediction := some ⟨"Hello", 9/10⟩, error := none }

/-- A probability vector whose arg-max confidence is exactly 0.69. -/
def dataLowW : List ℚ := [69/100, 1/10]

/-- A probability vector whose arg-max confidence is exactly 0.70. -/
def dataHighW : List ℚ := [7/10, 1/10]

/-- Concrete detection result for the C9 witness: an empty first hand and
a second hand with a single landmark. -/
def handsW : List (List Landmark) := [[], [⟨1/2, 1/3, 1/4⟩]]

/-- Source constant DEFAULT_CLASS_LABELS (lines 36-40). -/
def DEFAULT_CLASS_LABELS : List String :=
  ["Hello", "Thank you", "Yes", "No", "Please", "Sorry",
   "Good", "Bad", "Name", "What", "Where", "When", "How",
   "Help", "Want", "Love", "Like", "Need", "Time", "Now"]

/-! ## Virtual file table and weight assembly (variant 1,
createZipIOHandler, lines 360-464)

The extracted archive is a table from file name to byte content (bytes
as naturals).  The weight loader resolves every manifest path through a
fixed candidate list and concatenates the resolved byte buffers, group by
group and path by path. -/

/-- The virtual file table: zipContents.files as name/bytes pairs. -/
abbrev ZipTable := List (String × List Nat)

/-- Exact-key lookup zipContents.files[tryPath] (line 404). -/
def fileLookup (z : ZipTable) (p : String) : Option (List Nat) :=
  (z.find? (fun e => decide (e.1 = p))).map (fun e => e.2)

/-- Line 398: path.replace of one leading "./" occurrence with "". -/
def stripDotSlash (p : String) : String :=
  match p.data with
  | '.' :: '/' :: rest => String.mk rest
  | _ => p

/-- Lines 393-399: the candidate paths tried, in order. -/
def possiblePaths (modelDir path : String) : List String :=
  [modelDir ++ path, path, "model/" ++ path, "assets/" ++ path,
   stripDotSlash path]

/-- Lines 402-416: the first candidate present in the table wins; when
none matches, the thrown Error carries only the manifest path in its
message (the candidate list goes to console.error, line 412). -/
def resolveWeightFile (z : ZipTable) (modelDir path : String) :
    Except String (List Nat) :=
  match (possiblePaths modelDir path).findSome? (fileLookup z) with
  | some bytes => Except.ok bytes
  | none => Except.error ("Weight file not found in ZIP for path: " ++ path)

/-- Lines 390-431: resolve one group's paths in path-list order and
concatenate their bytes (the offset-copy loop of lines 425-429 realizes
list concatenation). -/
def assembleGroup (z : ZipTable) (modelDir : String) :
    List String → Except String (List Nat)
  | [] => Except.ok []
  | p :: rest => do
    let b ← resolveWeightFile z modelDir p
    let r ← assembleGroup z modelDir rest
    Except.ok (b ++ r)

/-- Lines 435-444: concatenate the group buffers in manifest order into
the contiguous weightData buffer. -/
def assembleWeightData (z : ZipTable) (modelDir : String) :
    List (List String) → Except String (List Nat)
  | [] => Except.ok []
  | g :: rest => do
    let b ← assembleGroup z modelDir g
    let r ← assembleWeightData z modelDir rest
    Except.ok (b ++ r)

/-- Concrete file table for the C5 witness: one file per candidate
layout. -/
def zipTableW : ZipTable :=
  [("m/a.bin", [1, 2]), ("model/b.bin", [3]), ("assets/c.bin", [4, 5, 6])]

/-- Concrete file table for the C6 counterexample: no candidate of
w.bin is present. -/
def zipTableMissingW : ZipTable := [("other.bin", [1])]

/-! ## Retry with exponential backoff (variant 1, retryWithBackoff,
lines 112-127; ZIP-download call site at lines 248-270)

The operation is modelled as a function from the invocation index to a
result; the trace records the final result, the number of invocations and
the delay slept before each retry (line 120: delay = baseDelay *
2^(3 - retries), with retries counting down from its initial value). -/

/-- Final result, invocation count and retry delays of one
retryWithBackoff run. -/
structure RetryTrace (E A : Type) where
  result : Except E A
  calls : Nat
  delays : List Nat

/-- retryWithBackoff (lines 112-127): run op; on failure with no retries
left rethrow the error, otherwise sleep baseDelay * 2^(3 - retries) and
recurse with retries - 1.  k is the index of the current invocation. -/
def retryWithBackoff (op : Nat → Except E A) (base : Nat) :
    Nat → Nat → RetryTrace E A
  | retries, k =>
    match op k with
    | Except.ok a => ⟨Except.ok a, 1, []⟩
    | Except.error e =>
      match retries with
      | 0 => ⟨Except.error e, 1, []⟩
      | r + 1 =>
        let d := base * 2 ^ (3 - (r + 1))
        let t := retryWithBackoff op base r (k + 1)
        ⟨t.result, t.calls + 1, d :: t.delays⟩

/-- Default baseDelay of retryWithBackoff (line 112). -/
def RETRY_DEFAULT_BASE_DELAY : Nat := 300

/-- baseDelay passed by the ZIP-download call site (line 265). -/
def ZIP_RETRY_BASE_DELAY : Nat := 500

/-- Retry count used at both the default (line 112) and the
ZIP-download call site (line 264). -/
def RETRY_COUNT : Nat := 3

/-! ## Session cache (variant 2, getModelDataFromSession lines 1123-1149,
storeModelDataInSession lines 1096-1117, and the session branch of
downloadAndExtractModelZip lines 1169-1210)

The session store holds the encoded payload, a timestamp and a version
tag under three keys; the base64 round-trip is modelled as the identity
on the stored bytes.  Extraction by the external archive library is a
parameter; the fresh-download tail of downloadAndExtractModelZip is a
parameter as well.  The in-memory zipCacheRef is null on a first load and
is not modelled. -/

/-- Freshness window of the session blob (line 1132: one hour). -/
def SESSION_FRESHNESS_MS : Nat := 60 * 60 * 1000

/-- The three session-storage keys (lines 1107-1109/1125-1127). -/
structure SessionStore where
  modelZipData : Option (List Nat)
  modelZipTimestamp : Option Nat
  modelZipVersion : Option String
deriving DecidableEq

/-- getModelDataFromSession (lines 1123-1149): requires all three keys
present, the version tag equal to the current CACHE_KEY, and the age
below the freshness window; otherwise returns none. -/
def getModelDataFromSession (s : SessionStore) (now : Nat) :
    Option (List Nat) :=
  match s.modelZipData, s.modelZipTimestamp, s.modelZipVersion with
  | some d, some ts, some v =>
    if v = CACHE_KEY then
      if (now : Int) - ts < (SESSION_FRESHNESS_MS : Int) then some d else none
    else none
  | _, _, _ => none

/-- Lines 1198-1202: the file list of the re-extracted blob must contain
a name with model.json as an infix, else the session data is invalid. -/
def containsModelJson (z : ZipTable) : Bool :=
  z.any (fun f => decide ("model.json".data <:+: f.1.data))

/-- Lines 1185-1202: re-extract the session bytes (CRC-checked by the
archive library, modelled as the extract parameter) and validate the
descriptor file is present. -/
def extractAndValidate (extract : List Nat → Except String ZipTable)
    (bytes : List Nat) : Except String ZipTable :=
  match extract bytes with
  | Except.error e => Except.error e
  | Except.ok z =>
    if containsModelJson z then Except.ok z
    else Except.error "Invalid ZIP structure in session storage"

/-- Provenance-tagged result of the ZIP acquisition. -/
inductive ZipSource where
  | fromSession (z : ZipTable)
  | fromDownload (z : ZipTable)
deriving DecidableEq

/-- The session branch of downloadAndExtractModelZip (lines 1169-1210):
a valid fresh session blob that re-extracts and validates is returned
directly; any session failure is caught (line 1206) and the flow
continues with the fresh download, whose outcome is the download
parameter. -/
def sessionOrDownload (s : SessionStore) (now : Nat)
    (extract : List Nat → Except String ZipTable)
    (download : Except String ZipTable) : Except String ZipSource :=
  match getModelDataFromSession s now with
  | some bytes =>
    match extractAndValidate extract bytes with
    | Except.ok z => Except.ok (ZipSource.fromSession z)
    | Except.error _ => download.map ZipSource.fromDownload
  | none => download.map ZipSource.fromDownload

/-- Concrete session store for the C8 witness: version tag of a stale
cache generation. -/
def sessionStoreW : SessionStore :=
  { modelZipData := some [1, 2],
    modelZipTimestamp := some 0,
    modelZipVersion := some "sign-language-model-v4" }

/-- Concrete failing extractor for the C8 witness. -/
def extractFailW : List Nat → Except String ZipTable :=
  fun _ => Except.error "CRC32 mismatch"

/-- Concrete fresh-download outcome for the C8 witness. -/
def downloadW : Except String ZipTable :=
  Except.ok [("model/model.json", [7])]

/-! ## Model acquisition cascade (variant 1, loadModel, lines 466-751)

The cascade tries the local bundled model, the IndexedDB cache, the
localStorage cache, the ZIP download and the direct remote URL in order,
advancing only on failure; every stage's exception is caught locally
(lines 534-536, 548-550, 560-562, 588-590, 618-620), so on the all-fail
path no exception reaches the outer catch of lines 726-747.  Each source
attempt is abstracted to a success flag; the state records the installed
model kind, the error string, the trace of setModelLoadingStage calls
and the final stage. -/

/-- Which model object ended up installed. -/
inductive ModelKind where
  | localModel
  | indexedDBModel
  | localStorageModel
  | zipModel
  | remoteModel
  | mockModel
deriving DecidableEq

/-- Success flags of the five real sources, plus whether the local model
files were found by the pre-check (lines 479-487). -/
structure LoadOutcomes where
  modelFilesExist : Bool
  localOk : Bool
  indexedDBOk : Bool
  localStorageOk : Bool
  zipOk : Bool
  directOk : Bool
deriving DecidableEq

/-- The cascade-visible state once loadModel finishes. -/
structure LoadState where
  model : Option ModelKind
  error : Option String
  stage : String
  trace : List String
  isLoading : Bool
deriving DecidableEq

/-- The error string set at line 627 when every real source failed. -/
def MOCK_FALLBACK_ERROR : String :=
  "❌ Could not load real model. Using mock model for demonstration only."

/-- loadModel (lines 466-751) on the happy control path where no
exception escapes the stage-local catches: sources are tried strictly in
order, the first success wins, the synthetic model is installed when all
fail, then warm-up, validation and the final stage transition to ready
run.  trace lists every setModelLoadingStage call in order; stage is the
last of them.  The ZIP attempt's inner stage updates (downloading /
extracting / loading / caching) are recorded at attempt granularity. -/
def loadModelRun (o : LoadOutcomes) : LoadState :=
  let afterLocal : Option ModelKind × List String :=
    if o.modelFilesExist then
      if o.localOk then (some ModelKind.localModel, ["initializing", "loading-local"])
      else (none, ["initializing", "loading-local"])
    else (none, ["initializing"])
  let afterIDB : Option ModelKind × List String :=
    match afterLocal with
    | (some m, tr) => (some m, tr)
    | (none, tr) =>
      if o.indexedDBOk then
        (some ModelKind.indexedDBModel, tr ++ ["loading-from-cache"])
      else (none, tr ++ ["loading-from-cache"])
  let afterLS : Option ModelKind × List String :=
    match afterIDB with
    | (some m, tr) => (some m, tr)
    | (none, tr) =>
      if o.localStorageOk then (some ModelKind.localStorageModel, tr)
      else (none, tr)
  let afterZip : Option ModelKind × List String :=
    match afterLS with
    | (some m, tr) => (some m, tr)
    | (none, tr) =>
      if o.zipOk then
        (some ModelKind.zipModel,
          tr ++ ["downloading", "extracting", "loading", "caching"])
      else (none, tr ++ ["downloading"])
  let afterDirect : Option ModelKind × List String :=
    match afterZip with
    | (some m, tr) => (some m, tr)
    | (none, tr) =>
      if o.directOk then
        (some ModelKind.remoteModel, tr ++ ["loading-from-server"])
      else (none, tr ++ ["loading-from-server"])
  -- lines 623-628: last resort synthetic model plus error string
  let installed : ModelKind × Option String :=
    match afterDirect.1 with
    | some m => (m, none)
    | none => (ModelKind.mockModel, some MOCK_FALLBACK_ERROR)
  -- lines 629-716: warm-up and validation log only; then the ready stage
  let trace := afterDirect.2 ++ ["warming-up", "ready"]
  { model := some installed.1,
    error := installed.2,
    stage := trace.getLastD "initializing",
    trace := trace,
    isLoading := false }

/-- Concrete all-fail outcome for the C2 witness. -/
def allFailW : LoadOutcomes :=
  { modelFilesExist := true, localOk := false, indexedDBOk := false,
    localStorageOk := false, zipOk := false, directOk := false }

end SignLanguage

namespace SignLanguage

theorem length_writeLandmark (arr : List ℚ) (base : Nat) (lm : Landmark) :
    (writeLandmark arr base lm).length = arr.length := by
  simp [writeLandmark]

theorem length_writeHand (lms : List Landmark) :
    ∀ arr base, (writeHand arr base lms).length = arr.length := by
  induction lms with
  | nil => intro arr base; simp [writeHand]
  | cons lm rest ih =>
    intro arr base
    simp [writeHand, ih, length_writeLandmark]

theorem length_writeHands (hands : List (List Landmark)) :
    ∀ arr hi, (writeHands arr hi hands).length = arr.length := by
  induction hands with
  | nil => intro arr hi; simp [writeHands]
  | cons h rest ih =>
    intro arr hi
    simp only [writeHands]
    rw [ih]
    by_cases h2 : 2 ≤ hi <;> simp [h2, length_writeHand]

/-- A writeLandmark at base does not change slots other than base,
base+1, base+2. -/
theorem getElem?_writeLandmark_ne (arr : List ℚ) (base : Nat) (lm : Landmark)
    (j : Nat) (h1 : j ≠ base) (h2 : j ≠ base + 1) (h3 : j ≠ base + 2) :
    (writeLandmark arr base lm)[j]? = arr[j]? := by
  simp only [writeLandmark]
  rw [List.getElem?_set_ne (fun h => h3 h.symm),
    List.getElem?_set_ne (fun h => h2 h.symm),
    List.getElem?_set_ne (fun h => h1 h.symm)]

/-- A hand written from offset base leaves every slot below base
unchanged. -/
theorem getElem?_writeHand_lt (lms : List Landmark) :
    ∀ arr base j, j < base → (writeHand arr base lms)[j]? = arr[j]? := by
  induction lms with
  | nil => intro arr base j _; simp [writeHand]
  | cons lm rest ih =>
    intro arr base j hj
    simp only [writeHand]
    rw [ih (writeLandmark arr base lm) (base + 3) j (by omega)]
    exact getElem?_writeLandmark_ne arr base lm j (by omega) (by omega) (by omega)

/-- A hand written from offset base leaves every slot at or beyond
base + 3*len unchanged. -/
theorem getElem?_writeHand_ge (lms : List Landmark) :
    ∀ arr base j, base + 3 * lms.length ≤ j →
      (writeHand arr base lms)[j]? = arr[j]? := by
  induction lms with
  | nil => intro arr base j _; simp [writeHand]
  | cons lm rest ih =>
    intro arr base j hj
    simp only [List.length_cons] at hj
    simp only [writeHand]
    rw [ih (writeLandmark arr base lm) (base + 3) j (by omega)]
    exact getElem?_writeLandmark_ne arr base lm j (by omega) (by omega) (by omega)

/-- Landmark l of a hand written from offset base occupies exactly the
slots base+3l, base+3l+1, base+3l+2. -/
theorem getElem?_writeHand_at (lms : List Landmark) :
    ∀ arr base l lm, lms[l]? = some lm → base + 3 * lms.length ≤ arr.length →
      (writeHand arr base lms)[base + 3 * l]? = some lm.x ∧
      (writeHand arr base lms)[base + 3 * l + 1]? = some lm.y ∧
      (writeHand arr base lms)[base + 3 * l + 2]? = some lm.z := by
  induction lms with
  | nil => intro arr base l lm hlm _; simp at hlm
  | cons lm0 rest ih =>
    intro arr base l lm hlm hlen
    simp only [List.length_cons] at hlen
    cases l with
    | zero =>
      simp only [List.getElem?_cons_zero, Option.some_inj] at hlm
      rw [← hlm]
      simp only [writeHand, Nat.mul_zero, Nat.add_zero]
      have hrest0 : (writeHand (writeLandmark arr base lm0) (base + 3) rest)[base]? =
          (writeLandmark arr base lm0)[base]? :=
        getElem?_writeHand_lt rest _ _ base (by omega)
      have hrest1 : (writeHand (writeLandmark arr base lm0) (base + 3) rest)[base + 1]? =
          (writeLandmark arr base lm0)[base + 1]? :=
        getElem?_writeHand_lt rest _ _ (base + 1) (by omega)
      have hrest2 : (writeHand (writeLandmark arr base lm0) (base + 3) rest)[base + 2]? =
          (writeLandmark arr base lm0)[base + 2]? :=
        getElem?_writeHand_lt rest _ _ (base + 2) (by omega)
      rw [hrest0, hrest1, hrest2]
      have hblen : base + 2 < arr.length := by omega
      refine ⟨?_, ?_, ?_⟩
      · simp only [writeLandmark]
        rw [List.getElem?_set_ne (by omega), List.getElem?_set_ne (by omega),
          List.getElem?_set_self]
        simp [Nat.lt_of_le_of_lt (by omega : base ≤ base + 2) hblen]
      · simp only [writeLandmark]
        rw [List.getElem?_set_ne (by omega), List.getElem?_set_self]
        simp [List.length_set, Nat.lt_of_le_of_lt (by omega : base + 1 ≤ base + 2) hblen]
      · simp only [writeLandmark]
        rw [List.getElem?_set_self]
        simp [List.length_set, hblen]
    | succ l0 =>
      simp only [List.getElem?_cons_succ] at hlm
      simp only [writeHand]
      have harr : (writeLandmark arr base lm0).length = arr.length :=
        length_writeLandmark arr base lm0
      have := ih (writeLandmark arr base lm0) (base + 3) l0 lm hlm (by omega)
      have hidx0 : base + 3 + 3 * l0 = base + 3 * (l0 + 1) := by ring
      rw [hidx0] at this
      exact this

/-- Hands starting from index 2 or beyond are ignored entirely. -/
theorem writeHands_skip (hands : List (List Landmark)) :
    ∀ arr hi, 2 ≤ hi → writeHands arr hi hands = arr := by
  induction hands with
  | nil => intro arr hi _; simp [writeHands]
  | cons h rest ih =>
    intro arr hi h2
    simp only [writeHands, if_pos h2]
    exact ih arr (hi + 1) (by omega)

/-- Hands written at indices hi and beyond do not touch slots below
hi*63, provided every written hand fits in its 63-slot region. -/
theorem getElem?_writeHands_lt (hands : List (List Landmark)) :
    ∀ arr hi j, (∀ h ∈ hands, h.length ≤ 21) → j < hi * 63 →
      (writeHands arr hi hands)[j]? = arr[j]? := by
  induction hands with
  | nil => intro arr hi j _ _; simp [writeHands]
  | cons h rest ih =>
    intro arr hi j hw hj
    simp only [writeHands]
    by_cases h2 : 2 ≤ hi
    · rw [if_pos h2]
      exact ih arr (hi + 1) j (fun g hg => hw g (by simp [hg])) (by omega)
    · rw [if_neg h2]
      rw [ih _ (hi + 1) j (fun g hg => hw g (by simp [hg])) (by omega)]
      exact getElem?_writeHand_lt h arr (hi * 63) j hj

/-- Processing only the first two hands gives the same frame vector. -/
theorem writeHands_take (hands : List (List Landmark)) :
    ∀ arr hi, writeHands arr hi hands = writeHands arr hi (hands.take (2 - hi)) := by
  induction hands with
  | nil => intro arr hi; simp
  | cons h rest ih =>
    intro arr hi
    by_cases h2 : 2 ≤ hi
    · rw [writeHands_skip (h :: rest) arr hi h2]
      have : 2 - hi = 0 := by omega
      rw [this]
      simp [writeHands]
    · have htk : (h :: rest).take (2 - hi) = h :: rest.take (2 - (hi + 1)) := by
        have h1 : 2 - hi = (2 - (hi + 1)) + 1 := by omega
        rw [h1]
        simp
      rw [htk]
      simp only [writeHands]
      rw [ih _ (hi + 1)]

end SignLanguage

namespace SignLanguage

/-- Key lemma: from any buffer state within capacity, ingesting a list of
frames leaves exactly the suffix of the combined stream that fits in the
buffer (Nat subtraction: the drop count is zero while under capacity). -/
theorem ingestAll_eq_drop (fs : List Frame) :
    ∀ buf : List Frame, buf.length ≤ FRAME_BUFFER_SIZE →
      ingestAll buf fs =
        (buf ++ fs).drop (buf.length + fs.length - FRAME_BUFFER_SIZE) := by
  induction fs with
  | nil =>
    intro buf hbuf
    simp [ingestAll, Nat.sub_eq_zero_of_le, hbuf]
  | cons f rest ih =>
    intro buf hbuf
    have hstep : ingestAll buf (f :: rest) = ingestAll (ingestFrame buf f) rest := by
      simp [ingestAll]
    rw [hstep]
    have hblen : (buf ++ [f]).length = buf.length + 1 := by simp
    by_cases hlen : FRAME_BUFFER_SIZE < (buf ++ [f]).length
    · -- at capacity: the oldest frame is shifted out
      have hbcap : buf.length = FRAME_BUFFER_SIZE := by omega
      have hbufpos : 0 < buf.length := by
        have : 0 < FRAME_BUFFER_SIZE := by decide
        omega
      obtain ⟨hd, tl, rfl⟩ : ∃ hd tl, buf = hd :: tl := by
        cases buf with
        | nil => simp at hbufpos
        | cons hd tl => exact ⟨hd, tl, rfl⟩
      have hfr : ingestFrame (hd :: tl) f = tl ++ [f] := by
        simp only [ingestFrame]
        rw [if_pos hlen]
        simp
      rw [hfr]
      have htllen : (tl ++ [f]).length = tl.length + 1 := by simp
      have htlbuf : (hd :: tl).length = tl.length + 1 := by simp
      have htl : (tl ++ [f]).length ≤ FRAME_BUFFER_SIZE := by omega
      rw [ih (tl ++ [f]) htl]
      have hcount : (tl ++ [f]).length + rest.length - FRAME_BUFFER_SIZE + 1 =
          (hd :: tl).length + (f :: rest).length - FRAME_BUFFER_SIZE := by
        have hrlen : (f :: rest).length = rest.length + 1 := by simp
        omega
      calc (tl ++ [f] ++ rest).drop ((tl ++ [f]).length + rest.length - FRAME_BUFFER_SIZE)
          = ((hd :: tl) ++ f :: rest).drop
              ((tl ++ [f]).length + rest.length - FRAME_BUFFER_SIZE + 1) := by
            simp [List.drop_succ_cons]
        _ = ((hd :: tl) ++ f :: rest).drop
              ((hd :: tl).length + (f :: rest).length - FRAME_BUFFER_SIZE) := by
            rw [hcount]
    · -- still under capacity: the buffer just grows
      have hfr : ingestFrame buf f = buf ++ [f] := by
        simp only [ingestFrame, if_neg hlen]
      rw [hfr]
      have hle : (buf ++ [f]).length ≤ FRAME_BUFFER_SIZE := by omega
      rw [ih (buf ++ [f]) hle]
      have hrlen : (f :: rest).length = rest.length + 1 := by simp
      rw [List.append_assoc, List.singleton_append]
      congr 1
      omega

/-- C1: for every sequence of calls to the frame-ingestion operation
(processHandLandmarks), starting from the initial empty buffer, the frame
buffer length never exceeds FRAME_BUFFER_SIZE (30), and after N >= 30
ingests the buffer holds exactly the last 30 ingested frames in insertion
order (FIFO eviction of the oldest). -/
theorem frame_buffer_fifo (fs : List Frame) :
    (ingestAll [] fs).length ≤ FRAME_BUFFER_SIZE ∧
    (FRAME_BUFFER_SIZE ≤ fs.length →
      ingestAll [] fs = fs.drop (fs.length - FRAME_BUFFER_SIZE)) := by
  have h := ingestAll_eq_drop fs [] (by simp)
  simp only [List.nil_append, List.length_nil, Nat.zero_add] at h
  constructor
  · rw [h, List.length_drop]
    omega
  · intro _
    exact h

/-- Witness for C1: a concrete run of 31 ingests ends with exactly the
last 30 frames. -/
theorem frame_buffer_fifo_witness :
    ingestAll [] framesW = framesW.drop (framesW.length - FRAME_BUFFER_SIZE) :=
  (frame_buffer_fifo framesW).2 (by decide)

/-- The nested forEach writes at most the first two hands: the frame
vector is the zero array overwritten by hand 0 (base 0) and hand 1
(base 63). -/
theorem processHandLandmarksFrame_eq (hands : List (List Landmark)) :
    processHandLandmarksFrame hands =
      match hands with
      | [] => List.replicate 126 0
      | [h0] => writeHand (List.replicate 126 0) 0 h0
      | h0 :: h1 :: _ => writeHand (writeHand (List.replicate 126 0) 0 h0) 63 h1 := by
  match hands with
  | [] => rfl
  | [h0] =>
    simp only [processHandLandmarksFrame, writeHands]
    norm_num
  | h0 :: h1 :: rest2 =>
    simp only [processHandLandmarksFrame, writeHands]
    norm_num
    exact writeHands_skip rest2 _ 2 (by omega)

/-- C9: frame-vector construction is slot-fixed.  For any detection
result whose hands have at most 21 landmarks each: the vector has 126
slots; hands beyond index 1 are ignored; the landmark with index l of the
hand with index h < 2 sits at offset h*63 + l*3 (x, y, z consecutively);
and every slot of the 63-slot region of hand h beyond that hand's own
data is zero — in particular an empty (or absent) first hand leaves the
first 63 slots at zero instead of shifting the second hand forward. -/
theorem frame_vector_slot_fixed (hands : List (List Landmark))
    (hw : ∀ h ∈ hands, h.length ≤ 21) :
    (processHandLandmarksFrame hands).length = 126 ∧
    processHandLandmarksFrame (hands.take 2) = processHandLandmarksFrame hands ∧
    (∀ hi hand l lm, hi < 2 → hands[hi]? = some hand → hand[l]? = some lm →
      (processHandLandmarksFrame hands)[hi * 63 + 3 * l]? = some lm.x ∧
      (processHandLandmarksFrame hands)[hi * 63 + 3 * l + 1]? = some lm.y ∧
      (processHandLandmarksFrame hands)[hi * 63 + 3 * l + 2]? = some lm.z) ∧
    (∀ hi k, hi < 2 → k < 63 → 3 * ((hands[hi]?.getD []).length) ≤ k →
      (processHandLandmarksFrame hands)[hi * 63 + k]? = some 0) := by
  have hrep : ∀ j, j < 126 → (List.replicate 126 (0:ℚ))[j]? = some 0 := by
    intro j hj
    rw [List.getElem?_replicate, if_pos hj]
  refine ⟨?_, ?_, ?_, ?_⟩
  · simp [processHandLandmarksFrame, length_writeHands]
  · have h2 : (2:Nat) - 0 = 2 := by omega
    have := writeHands_take hands (List.replicate 126 0) 0
    rw [h2] at this
    simp only [processHandLandmarksFrame]
    exact this.symm
  · intro hi hand l lm hhi hhand hlm
    have hl : l < hand.length := List.getElem?_eq_some_iff.mp hlm |>.1
    rcases (by omega : hi = 0 ∨ hi = 1) with rfl | rfl
    · -- hand 0, base 0
      rcases hands with _ | ⟨g0, rest⟩
      · simp at hhand
      · have hg : g0 = hand := by simpa using hhand
        subst hg
        have hle : g0.length ≤ 21 := hw g0 (by simp)
        have hat := getElem?_writeHand_at g0 (List.replicate 126 0) 0 l lm hlm
          (by simp; omega)
        rw [processHandLandmarksFrame_eq (g0 :: rest)]
        cases rest with
        | nil =>
          simpa using hat
        | cons h1 rest2 =>
          have hidx : ∀ d : Nat, d < 63 →
              (writeHand (writeHand (List.replicate 126 0) 0 g0) 63 h1)[d]? =
              (writeHand (List.replicate 126 0) 0 g0)[d]? := by
            intro d hd
            exact getElem?_writeHand_lt h1 _ 63 d hd
          simp only []
          refine ⟨?_, ?_, ?_⟩
          · rw [show (0:Nat) * 63 + 3 * l = 0 + 3 * l by omega, hidx (0 + 3 * l) (by omega)]
            exact hat.1
          · rw [show (0:Nat) * 63 + 3 * l + 1 = 0 + 3 * l + 1 by omega,
              hidx (0 + 3 * l + 1) (by omega)]
            exact hat.2.1
          · rw [show (0:Nat) * 63 + 3 * l + 2 = 0 + 3 * l + 2 by omega,
              hidx (0 + 3 * l + 2) (by omega)]
            exact hat.2.2
    · -- hand 1, base 63
      rcases hands with _ | ⟨h0, _ | ⟨g1, rest2⟩⟩
      · simp at hhand
      · simp at hhand
      · have hg : g1 = hand := by simpa using hhand
        subst hg
        have hle : g1.length ≤ 21 := hw g1 (by simp)
        have hat := getElem?_writeHand_at g1
          (writeHand (List.replicate 126 0) 0 h0) 63 l lm hlm
          (by rw [length_writeHand]; simp; omega)
        rw [processHandLandmarksFrame_eq (h0 :: g1 :: rest2)]
        simp only []
        refine ⟨?_, ?_, ?_⟩
        · rw [show (1:Nat) * 63 + 3 * l = 63 + 3 * l by omega]
          exact hat.1
        · rw [show (1:Nat) * 63 + 3 * l + 1 = 63 + 3 * l + 1 by omega]
          exact hat.2.1
        · rw [show (1:Nat) * 63 + 3 * l + 2 = 63 + 3 * l + 2 by omega]
          exact hat.2.2
  · intro hi k hhi hk hkge
    rw [processHandLandmarksFrame_eq hands]
    rcases (by omega : hi = 0 ∨ hi = 1) with rfl | rfl
    · match hands with
      | [] =>
        simp only []
        exact hrep (0 * 63 + k) (by omega)
      | [h0] =>
        simp only [List.getElem?_cons_zero, Option.getD_some] at hkge
        simp only []
        rw [show (0:Nat) * 63 + k = 0 + k by omega,
          getElem?_writeHand_ge h0 _ 0 (0 + k) (by omega)]
        exact hrep (0 + k) (by omega)
      | h0 :: h1 :: rest2 =>
        simp only [List.getElem?_cons_zero, Option.getD_some] at hkge
        simp only []
        rw [show (0:Nat) * 63 + k = 0 + k by omega,
          getElem?_writeHand_lt h1 _ 63 (0 + k) (by omega),
          getElem?_writeHand_ge h0 _ 0 (0 + k) (by omega)]
        exact hrep (0 + k) (by omega)
    · match hands with
      | [] =>
        simp only []
        exact hrep (1 * 63 + k) (by omega)
      | [h0] =>
        have hle : h0.length ≤ 21 := hw h0 (by simp)
        simp only []
        rw [getElem?_writeHand_ge h0 _ 0 (1 * 63 + k) (by omega)]
        exact hrep (1 * 63 + k) (by omega)
      | h0 :: h1 :: rest2 =>
        have hle : h0.length ≤ 21 := hw h0 (by simp)
        simp only [List.getElem?_cons_succ, List.getElem?_cons_zero,
          Option.getD_some] at hkge
        simp only []
        rw [show (1:Nat) * 63 + k = 63 + k by omega,
          getElem?_writeHand_ge h1 _ 63 (63 + k) (by omega),
          getElem?_writeHand_ge h0 _ 0 (63 + k) (by omega)]
        exact hrep (63 + k) (by omega)

/-- Witness for C9: with an empty first hand, slot 5 of the first-hand
region stays zero and the second hand's first landmark sits at slot 63 —
the second hand is not shifted forward. -/
theorem frame_vector_slot_fixed_witness :
    (processHandLandmarksFrame handsW)[0 * 63 + 5]? = some 0 ∧
    (processHandLandmarksFrame handsW)[1 * 63 + 3 * 0]? = some ((1:ℚ)/2) := by
  have h := frame_vector_slot_fixed handsW (by decide)
  constructor
  · exact h.2.2.2 0 5 (by decide) (by decide) (by decide)
  · exact (h.2.2.1 1 [⟨1/2, 1/3, 1/4⟩] 0 ⟨1/2, 1/3, 1/4⟩ (by decide) (by rfl) (by rfl)).1

/-- C10: the arg-max class index is clamped to at most
classLabels.length - 1 before indexing, so label selection never reads
out of bounds, and when the model output vector is longer than the label
set the last label is returned. -/
theorem argmax_index_clamped (arr : List ℚ) (labels : List String)
    (hne : labels ≠ []) :
    safeIndex arr labels < labels.length ∧
    (labels.length ≤ (argmaxConf arr).2 →
      labels.getD (safeIndex arr labels) "" = labels.getLast hne) := by
  have hpos : 0 < labels.length := List.length_pos.mpr hne
  have hle : safeIndex arr labels ≤ labels.length - 1 := Nat.min_le_right _ _
  constructor
  · omega
  · intro hidx
    have hmin : safeIndex arr labels = labels.length - 1 := by
      have h1 : labels.length - 1 ≤ (argmaxConf arr).2 := by omega
      simp only [safeIndex]
      exact Nat.min_eq_right h1
    rw [hmin, List.getLast_eq_getElem]
    rw [List.getD_eq_getElem?_getD, List.getElem?_eq_getElem (by omega)]
    rfl

/-- Witness for C10: with two labels and a four-class output vector whose
arg-max index is 3, the clamped index is in bounds and selects the last
label. -/
theorem argmax_index_clamped_witness :
    safeIndex [0, 0, 0, 1] ["a", "b"] < 2 ∧
    ["a", "b"].getD (safeIndex [0, 0, 0, 1] ["a", "b"]) "" = "b" := by
  have h := argmax_index_clamped [0, 0, 0, 1] ["a", "b"] (by decide)
  exact ⟨h.1, (h.2 (by decide)).trans (by rfl)⟩

/-- Evaluation of the variant-1 arg-max scan on the 0.69 witness vector. -/
theorem argmaxConf_dataLowW : argmaxConf dataLowW = (69/100, 0) := by
  norm_num [argmaxConf, dataLowW, scanMaxAux]

/-- Evaluation of the variant-1 arg-max scan on the 0.70 witness vector. -/
theorem argmaxConf_dataHighW : argmaxConf dataHighW = (7/10, 0) := by
  norm_num [argmaxConf, dataHighW, scanMaxAux]

/-- Evaluation of variant-1 runPrediction once the model, buffer-full,
throttle, buffer-length and nonempty-output gates pass. -/
theorem runPrediction_eval (labels : List String) (st : PredictorState)
    (now : ℚ) (infer : List ℚ)
    (hfull : st.isBufferFull = true)
    (hbuf : st.buffer.length = FRAME_BUFFER_SIZE)
    (hopen : ¬(now - st.lastPredictionTime < 200))
    (hne : infer.isEmpty = false) :
    runPrediction true labels st now infer =
      (if CONFIDENCE_THRESHOLD ≤ (argmaxConf infer).1 then
        ⟨some ⟨labels.getD (safeIndex infer labels) "", (argmaxConf infer).1, false⟩,
         { st with
           lastPredictionTime := now,
           prediction :=
             some ⟨labels.getD (safeIndex infer labels) "", (argmaxConf infer).1, false⟩ },
         true⟩
      else ⟨none, { st with lastPredictionTime := now }, true⟩) := by
  simp [runPrediction, hfull, hbuf, hopen, hne]

/-- Evaluation of variant-3 runPrediction once its guards pass: the
prediction is always overwritten and the buffer is reset. -/
theorem runPredictionSimplified_eval (names : Option (List String))
    (st : SimpleState) (data : List ℚ)
    (hfull : st.isBufferFull = true)
    (hbuf : st.buffer.length = FRAME_BUFFER_SIZE)
    (hframes : st.buffer.all (fun f => f.length = 126) = true) :
    runPredictionSimplified true names st data =
      { st with
        prediction := some (if CONFIDENCE_THRESHOLD ≤ (argmaxConf data).1 then
            ⟨outputLabel names (argmaxConf data).2, (argmaxConf data).1⟩
          else ⟨"No confident prediction", (argmaxConf data).1⟩),
        isPredicting := false, buffer := [], bufferLength := 0,
        isBufferFull := false } := by
  simp only [runPredictionSimplified, hfull, hbuf, hframes]
  split <;> simp_all

theorem sstW_guards :
    sstW.isBufferFull = true ∧ sstW.buffer.length = FRAME_BUFFER_SIZE ∧
    sstW.buffer.all (fun f => f.length = 126) = true := by
  refine ⟨rfl, ?_, ?_⟩ <;> simp [sstW, fullBufferW, FRAME_BUFFER_SIZE]

theorem stW_guards :
    stW.isBufferFull = true ∧ stW.buffer.length = FRAME_BUFFER_SIZE := by
  refine ⟨rfl, ?_⟩
  simp [stW, fullBufferW, FRAME_BUFFER_SIZE]

/-- Counterexample for C3: in the simplified hook cited by the claim
(variant 3, lines 2010-2017), a cycle whose arg-max confidence is 0.69
does NOT leave the previously stored prediction unchanged — it overwrites
it with a "No confident prediction" sentinel object. -/
theorem confidence_gate_counterexample :
    (argmaxConf dataLowW).1 = 69/100 ∧
    (runPredictionSimplified true none sstW dataLowW).prediction =
      some ⟨"No confident prediction", 69/100⟩ ∧
    (runPredictionSimplified true none sstW dataLowW).prediction ≠
      sstW.prediction := by
  obtain ⟨hg1, hg2, hg3⟩ := sstW_guards
  have hrun : (runPredictionSimplified true none sstW dataLowW).prediction =
      some ⟨"No confident prediction", 69/100⟩ := by
    rw [runPredictionSimplified_eval none sstW dataLowW hg1 hg2 hg3]
    simp only [argmaxConf_dataLowW]
    rw [if_neg (by norm_num [CONFIDENCE_THRESHOLD])]
  refine ⟨by rw [argmaxConf_dataLowW], hrun, ?_⟩
  rw [hrun]
  intro hcontra
  have hlabel : ("No confident prediction" : String) = "Hello" :=
    congrArg SimplePrediction.label (Option.some.inj hcontra)
  exact absurd hlabel (by decide)

/-- C3 (amended): in the main hook (variant 1, lines 914-932) a
prediction cycle emits and stores a Prediction exactly when the arg-max
confidence reaches CONFIDENCE_THRESHOLD (0.7): below the threshold
nothing is emitted and the previously stored prediction is retained,
at or above it the Prediction is emitted and stored.  In the simplified
hook (variant 3, lines 2010-2017) a below-threshold cycle instead
overwrites the stored prediction with a "No confident prediction"
sentinel carrying the low confidence. -/
theorem confidence_gate_amended (labels : List String) (st : PredictorState)
    (now : ℚ) (infer : List ℚ) (names : Option (List String))
    (sst : SimpleState) (data : List ℚ)
    (hfull : st.isBufferFull = true)
    (hbuf : st.buffer.length = FRAME_BUFFER_SIZE)
    (hth : 200 ≤ now - st.lastPredictionTime)
    (hne : infer ≠ [])
    (hsfull : sst.isBufferFull = true)
    (hsbuf : sst.buffer.length = FRAME_BUFFER_SIZE)
    (hsframes : sst.buffer.all (fun f => f.length = 126) = true) :
    ((CONFIDENCE_THRESHOLD ≤ (argmaxConf infer).1 →
        (runPrediction true labels st now infer).ret =
          some ⟨labels.getD (safeIndex infer labels) "", (argmaxConf infer).1, false⟩ ∧
        (runPrediction true labels st now infer).state.prediction =
          some ⟨labels.getD (safeIndex infer labels) "", (argmaxConf infer).1, false⟩) ∧
      ((argmaxConf infer).1 < CONFIDENCE_THRESHOLD →
        (runPrediction true labels st now infer).ret = none ∧
        (runPrediction true labels st now infer).state.prediction = st.prediction)) ∧
    ((argmaxConf data).1 < CONFIDENCE_THRESHOLD →
      (runPredictionSimplified true names sst data).prediction =
        some ⟨"No confident prediction", (argmaxConf data).1⟩) := by
  have hnotlt : ¬(now - st.lastPredictionTime < 200) := not_lt.mpr hth
  have hnemp : infer.isEmpty = false := by
    cases infer with
    | nil => exact absurd rfl hne
    | cons a as => rfl
  have heval := runPrediction_eval labels st now infer hfull hbuf hnotlt hnemp
  refine ⟨⟨?_, ?_⟩, ?_⟩
  · intro hc
    rw [heval, if_pos hc]
    exact ⟨rfl, rfl⟩
  · intro hc
    rw [heval, if_neg (not_le.mpr hc)]
    exact ⟨rfl, rfl⟩
  · intro hc
    rw [runPredictionSimplified_eval names sst data hsfull hsbuf hsframes]
    simp only [if_neg (not_le.mpr hc)]

/-- Witness for C3: a concrete below-threshold cycle (confidence 0.69) in
the main hook emits nothing and retains the stored prediction, while the
same cycle in the simplified hook stores the sentinel. -/
theorem confidence_gate_amended_witness :
    ((runPrediction true DEFAULT_CLASS_LABELS stW 300 dataLowW).ret = none ∧
     (runPrediction true DEFAULT_CLASS_LABELS stW 300 dataLowW).state.prediction =
       stW.prediction) ∧
    (runPredictionSimplified true none sstW dataLowW).prediction =
      some ⟨"No confident prediction", (argmaxConf dataLowW).1⟩ := by
  have hlow : (argmaxConf dataLowW).1 < CONFIDENCE_THRESHOLD := by
    rw [argmaxConf_dataLowW]
    norm_num [CONFIDENCE_THRESHOLD]
  have h := confidence_gate_amended DEFAULT_CLASS_LABELS stW 300 dataLowW none sstW
    dataLowW stW_guards.1 stW_guards.2 (by norm_num [stW]) (by simp [dataLowW])
    sstW_guards.1 sstW_guards.2.1 sstW_guards.2.2
  exact ⟨h.1.2 hlow, h.2 hlow⟩

/-- If a call cannot pass the 200ms throttle gate, it returns none and
has no effect at all. -/
theorem runPrediction_throttle (labels : List String) (st : PredictorState)
    (now : ℚ) (infer : List ℚ)
    (hfull : st.isBufferFull = true)
    (hlt : now - st.lastPredictionTime < 200) :
    runPrediction true labels st now infer = ⟨none, st, false⟩ := by
  simp [runPrediction, hfull, hlt]

/-- After a call that passes the model, buffer-full and throttle gates,
the stored throttle timestamp equals the call time and the buffer-full
flag is unchanged. -/
theorem runPrediction_state_after (labels : List String) (st : PredictorState)
    (now : ℚ) (infer : List ℚ)
    (hfull : st.isBufferFull = true)
    (hopen : 200 ≤ now - st.lastPredictionTime) :
    (runPrediction true labels st now infer).state.lastPredictionTime = now ∧
    (runPrediction true labels st now infer).state.isBufferFull = true := by
  have hnotlt : ¬(now - st.lastPredictionTime < 200) := not_lt.mpr hopen
  simp only [runPrediction]
  rw [if_neg (by simp), if_neg (by simp [hfull]), if_neg hnotlt]
  split
  · exact ⟨rfl, hfull⟩
  · split
    · exact ⟨rfl, hfull⟩
    · split
      · exact ⟨rfl, hfull⟩
      · exact ⟨rfl, hfull⟩

/-- C4: prediction is throttled to at most one inference execution per
200ms — after a first call at time t1 (past the gates), a second call at
t2 with t2 - t1 < 200 returns none, leaves the predictor state exactly as
the first call left it, and does not run inference. -/
theorem predict_throttled (labels : List String) (st : PredictorState)
    (t1 t2 : ℚ) (infer1 infer2 : List ℚ)
    (hfull : st.isBufferFull = true)
    (hopen : 200 ≤ t1 - st.lastPredictionTime)
    (hwin : t2 - t1 < 200) :
    runPrediction true labels
        (runPrediction true labels st t1 infer1).state t2 infer2 =
      ⟨none, (runPrediction true labels st t1 infer1).state, false⟩ := by
  obtain ⟨hl, hf⟩ := runPrediction_state_after labels st t1 infer1 hfull hopen
  exact runPrediction_throttle labels _ t2 infer2 hf (by rw [hl]; exact hwin)

/-- Witness for C4: two concrete calls 100ms apart — the second returns
none, changes nothing and runs no inference. -/
theorem predict_throttled_witness :
    runPrediction true DEFAULT_CLASS_LABELS
        (runPrediction true DEFAULT_CLASS_LABELS stW 300 dataHighW).state
        400 dataHighW =
      ⟨none, (runPrediction true DEFAULT_CLASS_LABELS stW 300 dataHighW).state,
        false⟩ :=
  predict_throttled DEFAULT_CLASS_LABELS stW 300 400 dataHighW dataHighW
    rfl (by norm_num [stW]) (by norm_num)

/-- C5: weight assembly is order-preserving and byte-exact — for a
manifest with groups [a, b] and [c] whose paths resolve to byte buffers
ba, bb, bc, the assembled contiguous weightData buffer is exactly
ba ++ bb ++ bc: each group's resolved files in manifest-group order and,
within a group, in path-list order, with no interleaving or reordering. -/
theorem weight_assembly_order (z : ZipTable) (modelDir a b c : String)
    (ba bb bc : List Nat)
    (ha : resolveWeightFile z modelDir a = Except.ok ba)
    (hb : resolveWeightFile z modelDir b = Except.ok bb)
    (hc : resolveWeightFile z modelDir c = Except.ok bc) :
    assembleWeightData z modelDir [[a, b], [c]] =
      Except.ok (ba ++ bb ++ bc) := by
  simp [assembleWeightData, assembleGroup, ha, hb, hc, Bind.bind, Except.bind]

/-- Witness for C5: a concrete table whose three buffers live at three
different candidate layouts assembles to the expected 6 bytes. -/
theorem weight_assembly_order_witness :
    assembleWeightData zipTableW "m/" [["a.bin", "b.bin"], ["c.bin"]] =
      Except.ok [1, 2, 3, 4, 5, 6] := by
  have h := weight_assembly_order zipTableW "m/" "a.bin" "b.bin" "c.bin"
    [1, 2] [3] [4, 5, 6] (by rfl) (by rfl) (by rfl)
  simpa using h

/-- Counterexample for C6: when no candidate matches, the thrown error
message names only the manifest path — the attempted candidate
model/w.bin is not contained in the error text (the full candidate list
is only logged via console.error, line 412). -/
theorem weight_resolution_counterexample :
    resolveWeightFile zipTableMissingW "m/" "w.bin" =
      Except.error "Weight file not found in ZIP for path: w.bin" ∧
    "model/w.bin" ∈ possiblePaths "m/" "w.bin" ∧
    ¬ ("model/w.bin".data <:+:
        ("Weight file not found in ZIP for path: w.bin").data) := by
  refine ⟨by rfl, by decide, by decide⟩

/-- C6 (amended): for every weight path the assembler tries exactly the
candidates (descriptor directory ++ path), path, "model/" ++ path,
"assets/" ++ path, path with a leading "./" stripped — in that order,
the first candidate present in the table wins, and if none matches the
assembly fails with an error that names the manifest path (the attempted
candidate list is logged to the console, not carried by the error). -/
theorem weight_resolution_amended (z : ZipTable) (modelDir path : String) :
    (∀ bytes, fileLookup z (modelDir ++ path) = some bytes →
      resolveWeightFile z modelDir path = Except.ok bytes) ∧
    (fileLookup z (modelDir ++ path) = none →
      ∀ bytes, fileLookup z path = some bytes →
        resolveWeightFile z modelDir path = Except.ok bytes) ∧
    (fileLookup z (modelDir ++ path) = none → fileLookup z path = none →
      ∀ bytes, fileLookup z ("model/" ++ path) = some bytes →
        resolveWeightFile z modelDir path = Except.ok bytes) ∧
    (fileLookup z (modelDir ++ path) = none → fileLookup z path = none →
      fileLookup z ("model/" ++ path) = none →
      ∀ bytes, fileLookup z ("assets/" ++ path) = some bytes →
        resolveWeightFile z modelDir path = Except.ok bytes) ∧
    (fileLookup z (modelDir ++ path) = none → fileLookup z path = none →
      fileLookup z ("model/" ++ path) = none →
      fileLookup z ("assets/" ++ path) = none →
      ∀ bytes, fileLookup z (stripDotSlash path) = some bytes →
        resolveWeightFile z modelDir path = Except.ok bytes) ∧
    ((∀ cand ∈ possiblePaths modelDir path, fileLookup z cand = none) →
      resolveWeightFile z modelDir path =
        Except.error ("Weight file not found in ZIP for path: " ++ path) ∧
      path.data <:+:
        ("Weight file not found in ZIP for path: " ++ path).data) := by
  refine ⟨?_, ?_, ?_, ?_, ?_, ?_⟩
  · intro bytes hb
    simp [resolveWeightFile, possiblePaths, List.findSome?_cons, hb]
  · intro h1 bytes hb
    simp [resolveWeightFile, possiblePaths, List.findSome?_cons, h1, hb]
  · intro h1 h2 bytes hb
    simp [resolveWeightFile, possiblePaths, List.findSome?_cons, h1, h2, hb]
  · intro h1 h2 h3 bytes hb
    simp [resolveWeightFile, possiblePaths, List.findSome?_cons, h1, h2, h3, hb]
  · intro h1 h2 h3 h4 bytes hb
    simp [resolveWeightFile, possiblePaths, List.findSome?_cons, h1, h2, h3, h4, hb]
  · intro hall
    have h1 := hall (modelDir ++ path) (by simp [possiblePaths])
    have h2 := hall path (by simp [possiblePaths])
    have h3 := hall ("model/" ++ path) (by simp [possiblePaths])
    have h4 := hall ("assets/" ++ path) (by simp [possiblePaths])
    have h5 := hall (stripDotSlash path) (by simp [possiblePaths])
    constructor
    · simp [resolveWeightFile, possiblePaths, List.findSome?_cons, h1, h2, h3, h4, h5]
    · rw [String.data_append]
      exact (List.suffix_append _ _).isInfix

/-- Witness for C6: the spec scenario — the archive stores
assets/group1.bin while the manifest says group1.bin; resolution succeeds
through the assets candidate. -/
theorem weight_resolution_amended_witness :
    resolveWeightFile [("assets/group1.bin", [9])] "" "group1.bin" =
      Except.ok [9] :=
  (weight_resolution_amended [("assets/group1.bin", [9])] "" "group1.bin").2.2.2.1
    (by decide) (by decide) (by decide) [9] (by decide)

/-- C7: the fresh-download retry policy.  With every invocation failing,
retryWithBackoff performs the initial call plus RETRY_COUNT = 3 retry
attempts (4 invocations in total), sleeps base * 2^attempt before retry
attempt number 0, 1, 2, and rethrows the error of the last invocation;
both base delays used by the source (default 300, ZIP call site 500) lie
in the 300-500ms range. -/
theorem retry_backoff {E A : Type} (errs : Nat → E) (base : Nat) :
    retryWithBackoff (A := A) (fun k => Except.error (errs k)) base
        RETRY_COUNT 0 =
      ⟨Except.error (errs 3), 4, [base * 2 ^ 0, base * 2 ^ 1, base * 2 ^ 2]⟩ ∧
    300 ≤ RETRY_DEFAULT_BASE_DELAY ∧ RETRY_DEFAULT_BASE_DELAY ≤ 500 ∧
    300 ≤ ZIP_RETRY_BASE_DELAY ∧ ZIP_RETRY_BASE_DELAY ≤ 500 := by
  refine ⟨?_, by norm_num [RETRY_DEFAULT_BASE_DELAY],
    by norm_num [RETRY_DEFAULT_BASE_DELAY],
    by norm_num [ZIP_RETRY_BASE_DELAY], by norm_num [ZIP_RETRY_BASE_DELAY]⟩
  simp only [RETRY_COUNT, retryWithBackoff]

/-- C8: a session blob is rejected — getModelDataFromSession returns
none, or the re-extracted bytes are discarded — when the version tag
mismatches the current cache key, when the age reaches the freshness
window, or when re-extraction of the cached bytes fails the
integrity/descriptor check; in all three cases the flow falls through to
the fresh download without throwing to the caller (the overall outcome is
exactly the download outcome). -/
theorem session_blob_rejection (s : SessionStore) (now : Nat)
    (extract : List Nat → Except String ZipTable)
    (download : Except String ZipTable) :
    (s.modelZipVersion ≠ some CACHE_KEY →
      getModelDataFromSession s now = none ∧
      sessionOrDownload s now extract download =
        download.map ZipSource.fromDownload) ∧
    (∀ ts, s.modelZipTimestamp = some ts →
      (SESSION_FRESHNESS_MS : Int) ≤ (now : Int) - ts →
      getModelDataFromSession s now = none ∧
      sessionOrDownload s now extract download =
        download.map ZipSource.fromDownload) ∧
    (∀ bytes, getModelDataFromSession s now = some bytes →
      (∀ z, extract bytes = Except.ok z → containsModelJson z = false) →
      sessionOrDownload s now extract download =
        download.map ZipSource.fromDownload) := by
  obtain ⟨d, ts0, v0⟩ := s
  refine ⟨?_, ?_, ?_⟩
  · intro hv
    have hget : getModelDataFromSession ⟨d, ts0, v0⟩ now = none := by
      cases d <;> cases ts0 <;> cases v0 <;>
        simp_all [getModelDataFromSession]
    exact ⟨hget, by simp [sessionOrDownload, hget]⟩
  · intro ts hts hage
    simp only at hts
    subst hts
    have hnotlt : ¬((now : Int) - ts < (SESSION_FRESHNESS_MS : Int)) :=
      not_lt.mpr hage
    have hget : getModelDataFromSession ⟨d, some ts, v0⟩ now = none := by
      cases d <;> cases v0 <;> simp_all [getModelDataFromSession]
    exact ⟨hget, by simp [sessionOrDownload, hget]⟩
  · intro bytes hget hval
    simp only [sessionOrDownload, hget]
    cases hex : extract bytes with
    | error e => simp [extractAndValidate, hex]
    | ok z =>
      have hcontains := hval z hex
      simp [extractAndValidate, hex, hcontains]

/-- Witness for C8: a session blob tagged with the previous cache-key
generation is rejected and the flow returns exactly the download
outcome. -/
theorem session_blob_rejection_witness :
    getModelDataFromSession sessionStoreW 5 = none ∧
    sessionOrDownload sessionStoreW 5 extractFailW downloadW =
      downloadW.map ZipSource.fromDownload :=
  (session_blob_rejection sessionStoreW 5 extractFailW downloadW).1 (by decide)

/-- C2: when every real model source fails (local bundled model, both
persistent cache tiers, the ZIP download — which subsumes the session
cache — and the direct remote URL), the acquisition ends with the
synthetic mock model installed, a non-empty error string exposed, and the
exposed loading stage equal to ready; the error stage is never entered
because every source failure is caught locally. -/
theorem cascade_synthetic_fallback (o : LoadOutcomes)
    (h1 : o.localOk = false) (h2 : o.indexedDBOk = false)
    (h3 : o.localStorageOk = false) (h4 : o.zipOk = false)
    (h5 : o.directOk = false) :
    (loadModelRun o).model = some ModelKind.mockModel ∧
    (loadModelRun o).error = some MOCK_FALLBACK_ERROR ∧
    MOCK_FALLBACK_ERROR ≠ "" ∧
    (loadModelRun o).stage = "ready" ∧
    "error" ∉ (loadModelRun o).trace ∧
    (loadModelRun o).isLoading = false := by
  obtain ⟨fe, l, idb, ls, z, d⟩ := o
  simp only at h1 h2 h3 h4 h5
  subst h1 h2 h3 h4 h5
  cases fe <;> decide

/-- Witness for C2: the concrete all-fail run installs the mock model
with the demonstration-only error and the ready stage. -/
theorem cascade_synthetic_fallback_witness :
    (loadModelRun allFailW).model = some ModelKind.mockModel ∧
    (loadModelRun allFailW).error = some MOCK_FALLBACK_ERROR ∧
    MOCK_FALLBACK_ERROR ≠ "" ∧
    (loadModelRun allFailW).stage = "ready" ∧
    "error" ∉ (loadModelRun allFailW).trace ∧
    (loadModelRun allFailW).isLoading = false :=
  cascade_synthetic_fallback allFailW rfl rfl rfl rfl rfl

end SignLanguage
